import Mathlib

/-!
Verification development for `src/download.py` of
`do-me/google-maps-open-graph-image-scraper`.

The whole program is the single function `download_social_preview_images`:
it loads a JSON list of place records, and for each record performs
GET → (optional consent-form POST → re-GET) → meta-tag image lookup →
image GET → file write, with per-record error isolation, and finally
writes the augmented record list.

The embedding below models JSON values, records as association lists, parsed
HTML pages as structured data (forms with input tags, meta tags — the HTML
parsing itself is the external library `BeautifulSoup`), and the network as
an oracle `Nat → NetResult` giving the outcome of the n-th HTTP request the
run issues.  Every request actually issued is recorded in a trace.
-/

set_option autoImplicit false

namespace GScrape

/-- JSON values as produced by Python's `json.load` (floats omitted: the
input data of this repository carries only strings; integers stand in for
the numeric case). -/
inductive JVal where
  | null
  | bool (b : Bool)
  | num (n : Int)
  | str (s : String)
  | arr (elems : List JVal)
  | obj (fields : List (String × JVal))

/-- Python truthiness, as used by `if not google_maps_url:` (line 43). -/
def JVal.truthy : JVal → Bool
  | .null => false
  | .bool b => b
  | .num n => !(n == 0)
  | .str s => !(s == "")
  | .arr es => !es.isEmpty
  | .obj fs => !fs.isEmpty

/-- Python `str()` of a JSON value.  The HTTP layer (`requests`) applies
`str()` to a non-string URL argument, and the f-string logging applies it to
the display name.  Only the `.str` case is reachable for the well-formed
input data this repository consumes; scalars follow Python `str`, container
renderings are abbreviated. -/
def JVal.pyStr : JVal → String
  | .null => "None"
  | .bool true => "True"
  | .bool false => "False"
  | .num n => toString n
  | .str s => s
  | .arr _ => "[...]"
  | .obj _ => "\x7b...\x7d"

/-- A record of the input list: a Python dict with string keys
(`item` in the source).  Duplicate keys cannot arise from `json.load`;
the lemmas below nevertheless hold for any association list. -/
abbrev Record := List (String × JVal)

/-- Python dict assignment `d[k] = v`: if the key is present its value is
updated in place (position preserved), otherwise the pair is appended. -/
def dictSet {β : Type} (l : List (String × β)) (k : String) (v : β) :
    List (String × β) :=
  if l.any (fun p => p.1 == k) then
    l.map (fun p => match p.1 == k with | true => (k, v) | false => p)
  else
    l ++ [(k, v)]

/-- An `<input>` element of a parsed form.  `name`/`value` are the attribute
values (`input_tag.get('name')`, `input_tag.get('value', '')`, lines 72–73);
`hidden` records whether the element has `type="hidden"` — the source never
reads it, but the spec's description of the consent POST refers to it. -/
structure InputTag where
  name : Option String
  value : Option String
  hidden : Bool
deriving DecidableEq

/-- A `<form>` element: its `action` attribute (forms matched by the consent
filter always carry one, a form with no `action` is modelled with `""`) and
its `<input>` descendants in document order (`find_all('input')`, line 71). -/
structure Form where
  action : String
  inputs : List InputTag
deriving DecidableEq

/-- A `<meta>` element with the three attributes the program inspects. -/
structure MetaTag where
  itemprop : Option String
  property : Option String
  content : Option String
deriving DecidableEq

/-- A parsed HTML page (`BeautifulSoup(response.text, 'html.parser')`):
forms and meta tags in document order. -/
structure Page where
  forms : List Form
  metas : List MetaTag
deriving DecidableEq

/-- HTTP request method. -/
inductive Method where
  | get
  | post
deriving DecidableEq

/-- One HTTP request issued through the session: method, URL, and the form
body (the `data=` mapping for POSTs, empty for GETs). -/
structure Request where
  method : Method
  url : String
  body : List (String × String)
deriving DecidableEq

/-- An HTTP response: final status code (after `requests` follows
redirects), the parsed HTML of its text, and its raw bytes (`.content`,
used for the image download). -/
structure Response where
  status : Nat
  page : Page
  content : List Nat
deriving DecidableEq

/-- Outcome of one network call, decided by the environment:
`requests.exceptions.Timeout`, any other `requests.exceptions.RequestException`
(connection failure, invalid URL, …), or a response. -/
inductive NetResult where
  | timeout
  | connError
  | ok (resp : Response)
deriving DecidableEq

/-- A network call fails to yield a usable response when it raises, or when
its status makes `raise_for_status()` raise (status ≥ 400). -/
def netFail : NetResult → Bool
  | .timeout => true
  | .connError => true
  | .ok r => decide (400 ≤ r.status)

/-- Substring test on character lists, used to model the regex search. -/
def listContains (pat : List Char) : List Char → Bool
  | [] => pat.isEmpty
  | c :: rest => pat.isPrefixOf (c :: rest) || listContains pat rest

/-- The consent-form filter of line 59:
`re.compile('https://consent.google.com/save')` searched inside the form's
`action` attribute.  Modelled as literal substring containment (the regex
metacharacter `.` matches the literal dot on every input of interest). -/
def consentActionMatch (a : String) : Bool :=
  listContains "https://consent.google.com/save".toList a.toList

/-- Lines 71–75: the form body mapping `form_data` — a Python dict filled,
in document order, from every `<input>` of the chosen form that has a `name`
attribute, with the `value` attribute defaulting to `""`. -/
def buildFormData (inputs : List InputTag) : List (String × String) :=
  inputs.foldl
    (fun d t =>
      match t.name with
      | some n => dictSet d n (t.value.getD "")
      | none => d)
    []

/-- Modelled from the spec's words (for comparison with `buildFormData`,
which is the source's behaviour): "Collect all hidden-input name/value pairs
inside the chosen form into a field mapping" — i.e. only inputs with
`type="hidden"` contribute. -/
def buildFormDataHiddenOnly (inputs : List InputTag) : List (String × String) :=
  buildFormData (inputs.filter (fun t => t.hidden))

/-- Line 96: `soup.find("meta", attrs={"itemprop": "image"}) or
soup.find("meta", attrs={"property": "og:image"})`.  `find` returns the first
matching tag in document order; a found tag is truthy in Python even when it
has no `content` attribute, so `or` prefers any `itemprop=image` tag. -/
def findMetaImage (p : Page) : Option MetaTag :=
  match p.metas.find? (fun m => m.itemprop == some "image") with
  | some t => some t
  | none => p.metas.find? (fun m => m.property == some "og:image")

/-- Line 101: `re.sub(r'[\\/*?:"<>|]', "", place_name)` — the characters
removed from the display name before it becomes a file name. -/
def bannedChar (c : Char) : Bool :=
  c == '\\' || c == '/' || c == '*' || c == '?' || c == ':' ||
    c == '\"' || c == '<' || c == '>' || c == '|'

/-- Line 101: `.replace(" ", "_")`. -/
def spaceToUnderscore (c : Char) : Char :=
  if c == ' ' then '_' else c

/-- Line 101: remove the banned characters, then replace spaces with
underscores. -/
def sanitize (s : String) : String :=
  String.mk ((s.toList.filter (fun c => !bannedChar c)).map spaceToUnderscore)

/-- Line 40: `google_maps_url = item.get("Google_Maps")` (`None` when the
key is absent, modelled as `JVal.null`, which is equally falsy). -/
def gmOf (item : Record) : JVal :=
  (List.lookup "Google_Maps" item).getD JVal.null

/-- Line 41: `place_name = item.get("Place_Name", "unknown_place")`. -/
def pnOf (item : Record) : JVal :=
  (List.lookup "Place_Name" item).getD (JVal.str "unknown_place")

/-- Line 59: `consent_forms = soup.find_all('form', action=re.compile(...))` —
the forms whose action matches the consent pattern, in document order. -/
def consentForms (p : Page) : List Form :=
  p.forms.filter (fun f => consentActionMatch f.action)

/-- Result of processing one record: the updated record (`none` when the
processing dies of an uncaught `TypeError` — `re.sub` applied to a
non-string display name, the only exception the handlers of lines 117–122
do not cover), the HTTP requests issued for this record in order, the files
written as (path, bytes), and the `str()` of the display name used in the
log messages. -/
structure StepOut where
  item : Option Record
  trace : List Request
  writes : List (String × List Nat)
  logName : String

/-- The shared shape of every error/skip outcome: `item["image"] = None`
(lines 45, 114, 119, 122). -/
def nullOut (item : Record) (tr : List Request) (logName : String) : StepOut :=
  ⟨some (dictSet item "image" JVal.null), tr, [], logName⟩

/-- Lines 96–122: metadata extraction and image download, applied to the
final page (`soup`).  `k` is the index of the next network call.  The
`place_images` directory and `.jpg` extension are those of lines 15 and
101–103 (`os.path.join` on a POSIX host). -/
def extractAndDownload (env : Nat → NetResult) (k : Nat) (item : Record)
    (pn : JVal) (soup : Page) : StepOut :=
  match findMetaImage soup with
  | none => nullOut item [] pn.pyStr
  | some tag =>
    match tag.content with
    | none => nullOut item [] pn.pyStr
    | some imageUrl =>
      if imageUrl = "" then nullOut item [] pn.pyStr
      else
        match pn with
        | .str name =>
          let imagePath := "place_images/" ++ sanitize name ++ ".jpg"
          let req : Request := ⟨.get, imageUrl, []⟩
          match env k with
          | .timeout => nullOut item [req] pn.pyStr
          | .connError => nullOut item [req] pn.pyStr
          | .ok resp =>
            if 400 ≤ resp.status then nullOut item [req] pn.pyStr
            else
              ⟨some (dictSet item "image" (JVal.str imagePath)), [req],
                [(imagePath, resp.content)], pn.pyStr⟩
        | _ => ⟨none, [], [], pn.pyStr⟩

/-- Lines 39–122: processing of a single record of the loop body.
`env` is the network oracle, `k` the number of requests issued so far in the
run.  Mirrors the source: read `Google_Maps` and `Place_Name` (lines 40–41),
skip falsy URLs (43–46), initial GET with `raise_for_status` (52–53),
consent-form detection and selection of the last matching form (59–65),
consent POST (82–83), re-GET (88–90), then `extractAndDownload`; the
`except` clauses (117–122) turn `Timeout`/`RequestException` at any step
into `item["image"] = None`. -/
def handleItem (env : Nat → NetResult) (k : Nat) (item : Record) : StepOut :=
  if (gmOf item).truthy = false then
    ⟨some (dictSet item "image" JVal.null), [], [], (pnOf item).pyStr⟩
  else
    match env k with
    | .timeout => nullOut item [⟨.get, (gmOf item).pyStr, []⟩] (pnOf item).pyStr
    | .connError => nullOut item [⟨.get, (gmOf item).pyStr, []⟩] (pnOf item).pyStr
    | .ok resp0 =>
      if 400 ≤ resp0.status then
        nullOut item [⟨.get, (gmOf item).pyStr, []⟩] (pnOf item).pyStr
      else
        match (consentForms resp0.page).getLast? with
        | none =>
          let e := extractAndDownload env (k + 1) item (pnOf item) resp0.page
          ⟨e.item, ⟨.get, (gmOf item).pyStr, []⟩ :: e.trace, e.writes, e.logName⟩
        | some form =>
          match env (k + 1) with
          | .timeout =>
            nullOut item
              [⟨.get, (gmOf item).pyStr, []⟩,
               ⟨.post, form.action, buildFormData form.inputs⟩] (pnOf item).pyStr
          | .connError =>
            nullOut item
              [⟨.get, (gmOf item).pyStr, []⟩,
               ⟨.post, form.action, buildFormData form.inputs⟩] (pnOf item).pyStr
          | .ok resp1 =>
            if 400 ≤ resp1.status then
              nullOut item
                [⟨.get, (gmOf item).pyStr, []⟩,
                 ⟨.post, form.action, buildFormData form.inputs⟩] (pnOf item).pyStr
            else
              match env (k + 2) with
              | .timeout =>
                nullOut item
                  [⟨.get, (gmOf item).pyStr, []⟩,
                   ⟨.post, form.action, buildFormData form.inputs⟩,
                   ⟨.get, (gmOf item).pyStr, []⟩] (pnOf item).pyStr
              | .connError =>
                nullOut item
                  [⟨.get, (gmOf item).pyStr, []⟩,
                   ⟨.post, form.action, buildFormData form.inputs⟩,
                   ⟨.get, (gmOf item).pyStr, []⟩] (pnOf item).pyStr
              | .ok resp2 =>
                if 400 ≤ resp2.status then
                  nullOut item
                    [⟨.get, (gmOf item).pyStr, []⟩,
                     ⟨.post, form.action, buildFormData form.inputs⟩,
                     ⟨.get, (gmOf item).pyStr, []⟩] (pnOf item).pyStr
                else
                  let e := extractAndDownload env (k + 3) item (pnOf item) resp2.page
                  ⟨e.item,
                    ⟨.get, (gmOf item).pyStr, []⟩ ::
                      ⟨.post, form.action, buildFormData form.inputs⟩ ::
                        ⟨.get, (gmOf item).pyStr, []⟩ :: e.trace,
                    e.writes, e.logName⟩

/-- Result of the loop over all records: the processed list (`none` when an
uncaught exception aborted the loop, in which case line 125 is never
reached), with the concatenated request trace and file writes. -/
structure BatchOut where
  items : Option (List Record)
  trace : List Request
  writes : List (String × List Nat)

/-- Lines 39–122: the loop over `data`, threading the request counter. -/
def runBatch (env : Nat → NetResult) (k : Nat) : List Record → BatchOut
  | [] => ⟨some [], [], []⟩
  | item :: rest =>
    let s := handleItem env k item
    match s.item with
    | none => ⟨none, s.trace, s.writes⟩
    | some r =>
      let b := runBatch env (k + s.trace.length) rest
      ⟨b.items.map (fun l => r :: l), s.trace ++ b.trace, s.writes ++ b.writes⟩

/-- Outcome of the attempt to load the input file (lines 19–27):
`FileNotFoundError`, `json.JSONDecodeError`, or the decoded record list. -/
inductive LoadResult where
  | fileNotFound
  | jsonDecodeError
  | ok (data : List Record)

/-- Observable outcome of a whole run: all requests issued, all image files
written, the content of `places_with_images.json` (`none` when it was never
written), and whether a load-error message was printed (lines 23, 26). -/
structure RunOut where
  trace : List Request
  writes : List (String × List Nat)
  output : Option (List Record)
  inputErrorReported : Bool

/-- Lines 7–131: the whole program.  On a load error it prints a message and
returns before any record is processed (lines 22–27); otherwise it runs the
loop and, if no uncaught exception escaped, writes the augmented list
(lines 124–126). -/
def download_social_preview_images (load : LoadResult) (env : Nat → NetResult) :
    RunOut :=
  match load with
  | .fileNotFound => ⟨[], [], none, true⟩
  | .jsonDecodeError => ⟨[], [], none, true⟩
  | .ok data =>
    let b := runBatch env 0 data
    ⟨b.trace, b.writes, b.items, false⟩

/-- Check used to state that a processed record carries an `image` field
holding either the null marker or a string path. -/
def isImageSet (r : Record) : Bool :=
  match List.lookup "image" r with
  | some .null => true
  | some (.str _) => true
  | _ => false

/-- Concrete consent form whose only named input is not hidden. -/
def cxForm : Form :=
  ⟨"https://consent.google.com/save", [⟨some "q", some "1", false⟩]⟩

/-- Concrete page carrying `cxForm` and no meta tags. -/
def cxPage : Page := ⟨[cxForm], []⟩

/-- Environment answering every request with status 200 and `cxPage`. -/
def cxEnv : Nat → NetResult := fun _ => .ok ⟨200, cxPage, []⟩

/-- Concrete record holding only a source URL. -/
def cxItem : Record := [("Google_Maps", JVal.str "http://g")]

/-- Environment that times every request out. -/
def envTimeout : Nat → NetResult := fun _ => .timeout

/-- Concrete page with an `itemprop=image` meta tag and an `og:image` meta
tag carrying different URLs. -/
def twoMetaPage : Page :=
  ⟨[], [⟨some "image", none, some "http://img/a.jpg"⟩,
        ⟨none, some "og:image", some "http://img/b.jpg"⟩]⟩

/-- Concrete page whose only meta tag matches `itemprop=image` but has an
empty `content` attribute. -/
def emptyContentPage : Page := ⟨[], [⟨some "image", none, some ""⟩]⟩

/-- Concrete consent-free page with a usable `itemprop=image` meta tag. -/
def goodPage : Page := ⟨[], [⟨some "image", none, some "http://img/c.jpg"⟩]⟩

/-- Environment answering every request with status 200, `goodPage` and a
one-byte body. -/
def goodEnv : Nat → NetResult := fun _ => .ok ⟨200, goodPage, [7]⟩

theorem lookup_map_set {β : Type} (k : String) (v : β) :
    ∀ l : List (String × β), l.any (fun p => p.1 == k) = true →
      List.lookup k
        (l.map (fun p => match p.1 == k with | true => (k, v) | false => p)) =
        some v := by
  intro l
  induction l with
  | nil => intro h; simp at h
  | cons a t ih =>
    obtain ⟨a1, a2⟩ := a
    intro h
    cases e : a1 == k with
    | true => simp [List.lookup, e]
    | false =>
      have ht : t.any (fun p => p.1 == k) = true := by
        rw [List.any_cons] at h
        simpa [e] using h
      have hne : (k == a1) = false := by
        rw [beq_eq_false_iff_ne] at e ⊢
        exact fun x => e x.symm
      simpa [List.lookup, e, hne] using ih ht

theorem lookup_append_single {β : Type} (k : String) (v : β) :
    ∀ l : List (String × β), l.any (fun p => p.1 == k) = false →
      List.lookup k (l ++ [(k, v)]) = some v := by
  intro l
  induction l with
  | nil => intro _; simp [List.lookup]
  | cons a t ih =>
    obtain ⟨a1, a2⟩ := a
    intro h
    rw [List.any_cons, Bool.or_eq_false_iff] at h
    obtain ⟨h1, h2⟩ := h
    have hne : (k == a1) = false := by
      rw [beq_eq_false_iff_ne] at h1 ⊢
      exact fun x => h1 x.symm
    simpa [List.lookup, hne] using ih h2

/-- Updating key `k` makes `lookup k` return the new value. -/
theorem lookup_dictSet_self {β : Type} (l : List (String × β)) (k : String) (v : β) :
    List.lookup k (dictSet l k v) = some v := by
  unfold dictSet
  cases h : l.any (fun p => p.1 == k) with
  | true =>
    simp only [h, if_true]
    exact lookup_map_set k v l h
  | false =>
    simp only [h, Bool.false_eq_true, if_false]
    exact lookup_append_single k v l h

theorem lookup_map_set_ne {β : Type} (k k' : String) (v : β) (hk : k' ≠ k) :
    ∀ l : List (String × β),
      List.lookup k'
        (l.map (fun p => match p.1 == k with | true => (k, v) | false => p)) =
        List.lookup k' l := by
  intro l
  induction l with
  | nil => simp
  | cons a t ih =>
    obtain ⟨a1, a2⟩ := a
    cases e : a1 == k with
    | true =>
      have hk1 : (k' == k) = false := beq_eq_false_iff_ne.mpr hk
      have hk2 : (k' == a1) = false := by
        rw [beq_iff_eq] at e
        rw [e]
        exact hk1
      simp [List.lookup, e, hk1, hk2, ih]
    | false => simp [List.lookup, e, ih]

/-- Updating key `k` leaves `lookup` at any other key unchanged. -/
theorem lookup_dictSet_ne {β : Type} (l : List (String × β)) (k k' : String) (v : β)
    (hk : k' ≠ k) : List.lookup k' (dictSet l k v) = List.lookup k' l := by
  unfold dictSet
  cases h : l.any (fun p => p.1 == k) with
  | true =>
    simp only [h, if_true]
    exact lookup_map_set_ne k k' v hk l
  | false =>
    simp only [h, Bool.false_eq_true, if_false]
    have hk1 : (k' == k) = false := beq_eq_false_iff_ne.mpr hk
    induction l with
    | nil => simp [List.lookup, hk1]
    | cons a t ih =>
      obtain ⟨a1, a2⟩ := a
      have ht : t.any (fun p => p.1 == k) = false := by
        rw [List.any_cons, Bool.or_eq_false_iff] at h
        exact h.2
      cases e : k' == a1 with
      | true => simp [List.lookup, e]
      | false => simp [List.lookup, e, ih ht]

theorem bannedChar_spaceToUnderscore {c : Char} (h : bannedChar c = false) :
    bannedChar (spaceToUnderscore c) = false := by
  by_cases hc : c = ' '
  · subst hc; decide
  · simpa [spaceToUnderscore, hc] using h

theorem spaceToUnderscore_idem (c : Char) :
    spaceToUnderscore (spaceToUnderscore c) = spaceToUnderscore c := by
  by_cases hc : c = ' '
  · subst hc; decide
  · simp [spaceToUnderscore, hc]

theorem sanitize_toList (s : String) :
    (sanitize s).toList =
      (s.toList.filter (fun c => !bannedChar c)).map spaceToUnderscore := rfl

theorem mem_sanitize_not_banned {s : String} {c : Char}
    (h : c ∈ (sanitize s).toList) : bannedChar c = false := by
  rw [sanitize_toList] at h
  obtain ⟨b, hb, rfl⟩ := List.mem_map.mp h
  have hf := List.of_mem_filter hb
  exact bannedChar_spaceToUnderscore (by simpa using hf)

/-- C8: the filename sanitization (strip the reserved characters, then turn
spaces into underscores) is idempotent: a second application returns the
already-sanitized name unchanged, for every input string. -/
theorem c8_sanitize_idempotent (s : String) : sanitize (sanitize s) = sanitize s := by
  show String.mk (((sanitize s).toList.filter (fun c => !bannedChar c)).map spaceToUnderscore)
      = sanitize s
  have h1 : (sanitize s).toList.filter (fun c => !bannedChar c) = (sanitize s).toList :=
    List.filter_eq_self.mpr (fun c hc => by simp [mem_sanitize_not_banned hc])
  rw [h1, sanitize_toList, List.map_map]
  have h2 : spaceToUnderscore ∘ spaceToUnderscore = spaceToUnderscore :=
    funext spaceToUnderscore_idem
  rw [h2]
  rfl

/-- Exhaustive case description of the extract/download phase: null
annotation with no request, null annotation after a failed image request,
a successful download, or the uncaught `TypeError` of a non-string display
name. -/
theorem extract_master (env : Nat → NetResult) (k : Nat) (item : Record)
    (pn : JVal) (soup : Page) :
    (extractAndDownload env k item pn soup =
        ⟨some (dictSet item "image" JVal.null), [], [], pn.pyStr⟩) ∨
    (∃ name u, pn = JVal.str name ∧ u ≠ "" ∧ netFail (env k) = true ∧
        extractAndDownload env k item pn soup =
          ⟨some (dictSet item "image" JVal.null), [⟨.get, u, []⟩], [], pn.pyStr⟩) ∨
    (∃ name u resp, pn = JVal.str name ∧ u ≠ "" ∧ env k = .ok resp ∧
        resp.status < 400 ∧
        extractAndDownload env k item pn soup =
          ⟨some (dictSet item "image"
              (JVal.str ("place_images/" ++ sanitize name ++ ".jpg"))),
            [⟨.get, u, []⟩],
            [("place_images/" ++ sanitize name ++ ".jpg", resp.content)],
            pn.pyStr⟩) ∨
    ((∀ name, pn ≠ JVal.str name) ∧
        extractAndDownload env k item pn soup = ⟨none, [], [], pn.pyStr⟩) := by
  rcases hm : findMetaImage soup with _ | tag
  · exact Or.inl (by simp [extractAndDownload, hm, nullOut])
  · rcases hc : tag.content with _ | u
    · exact Or.inl (by simp [extractAndDownload, hm, hc, nullOut])
    · by_cases hu : u = ""
      · exact Or.inl (by simp [extractAndDownload, hm, hc, hu, nullOut])
      · rcases pn with _ | b | n | name | es | fs
        · exact Or.inr (Or.inr (Or.inr ⟨fun n h => JVal.noConfusion h,
            by simp [extractAndDownload, hm, hc, hu, nullOut]⟩))
        · exact Or.inr (Or.inr (Or.inr ⟨fun n h => JVal.noConfusion h,
            by simp [extractAndDownload, hm, hc, hu, nullOut]⟩))
        · exact Or.inr (Or.inr (Or.inr ⟨fun n h => JVal.noConfusion h,
            by simp [extractAndDownload, hm, hc, hu, nullOut]⟩))
        · rcases he : env k with _ | _ | resp
          · exact Or.inr (Or.inl ⟨name, u, rfl, hu, by simp [netFail, he],
              by simp [extractAndDownload, hm, hc, hu, he, nullOut]⟩)
          · exact Or.inr (Or.inl ⟨name, u, rfl, hu, by simp [netFail, he],
              by simp [extractAndDownload, hm, hc, hu, he, nullOut]⟩)
          · by_cases hs : 400 ≤ resp.status
            · exact Or.inr (Or.inl ⟨name, u, rfl, hu, by simp [netFail, he, hs],
                by simp [extractAndDownload, hm, hc, hu, he, hs, nullOut]⟩)
            · exact Or.inr (Or.inr (Or.inl ⟨name, u, resp, rfl, hu, rfl, by omega,
                by simp [extractAndDownload, hm, hc, hu, he, hs, nullOut]⟩))
        · exact Or.inr (Or.inr (Or.inr ⟨fun n h => JVal.noConfusion h,
            by simp [extractAndDownload, hm, hc, hu, nullOut]⟩))
        · exact Or.inr (Or.inr (Or.inr ⟨fun n h => JVal.noConfusion h,
            by simp [extractAndDownload, hm, hc, hu, nullOut]⟩))

theorem extract_logName (env : Nat → NetResult) (k : Nat) (item : Record)
    (pn : JVal) (soup : Page) :
    (extractAndDownload env k item pn soup).logName = pn.pyStr := by
  rcases extract_master env k item pn soup with h | ⟨_, _, _, _, _, h⟩ |
    ⟨_, _, _, _, _, _, _, h⟩ | ⟨_, h⟩ <;> rw [h]

theorem extract_item_shape (env : Nat → NetResult) (k : Nat) (item : Record)
    (pn : JVal) (soup : Page) :
    (extractAndDownload env k item pn soup).item = none ∨
    (extractAndDownload env k item pn soup).item =
      some (dictSet item "image" JVal.null) ∨
    ∃ s, (extractAndDownload env k item pn soup).item =
      some (dictSet item "image"
        (JVal.str ("place_images/" ++ sanitize s ++ ".jpg"))) := by
  rcases extract_master env k item pn soup with h | ⟨_, _, _, _, _, h⟩ |
    ⟨name, _, _, _, _, _, _, h⟩ | ⟨_, h⟩
  · exact Or.inr (Or.inl (by rw [h]))
  · exact Or.inr (Or.inl (by rw [h]))
  · exact Or.inr (Or.inr ⟨name, by rw [h]⟩)
  · exact Or.inl (by rw [h])

/-- A network failure consumed by the extract/download phase always yields
the null image annotation. -/
theorem extract_fail_null (env : Nat → NetResult) (k : Nat) (item : Record)
    (pn : JVal) (soup : Page)
    (h : ∃ j, j < (extractAndDownload env k item pn soup).trace.length ∧
        netFail (env (k + j)) = true) :
    (extractAndDownload env k item pn soup).item =
      some (dictSet item "image" JVal.null) := by
  rcases extract_master env k item pn soup with he | ⟨_, _, _, _, _, he⟩ |
    ⟨name, u, resp, _, _, henv, hst, he⟩ | ⟨_, he⟩
  · rw [he]
  · rw [he]
  · obtain ⟨j, hj, hfj⟩ := h
    rw [he] at hj
    simp only [List.length_cons, List.length_nil] at hj
    have hj0 : j = 0 := by omega
    subst hj0
    rw [Nat.add_zero, henv] at hfj
    simp only [netFail, decide_eq_true_eq] at hfj
    omega
  · obtain ⟨j, hj, _⟩ := h
    rw [he] at hj
    simp at hj

theorem extract_writes (env : Nat → NetResult) (k : Nat) (item : Record)
    (pn : JVal) (soup : Page) (s : String) (hpn : pn = JVal.str s) :
    ((extractAndDownload env k item pn soup).writes.all
      (fun w => w.1 == "place_images/" ++ sanitize s ++ ".jpg")) = true := by
  rcases extract_master env k item pn soup with h | ⟨_, _, _, _, _, h⟩ |
    ⟨name, _, _, hn, _, _, _, h⟩ | ⟨_, h⟩
  · rw [h]; rfl
  · rw [h]; rfl
  · rw [hpn] at hn
    obtain rfl : name = s := (JVal.str.injEq _ _).mp hn.symm
    rw [h]
    simp
  · rw [h]; rfl

theorem extract_no_post (env : Nat → NetResult) (k : Nat) (item : Record)
    (pn : JVal) (soup : Page) :
    (extractAndDownload env k item pn soup).trace.filter
      (fun r => r.method == Method.post) = [] := by
  rcases extract_master env k item pn soup with h | ⟨_, _, _, _, _, h⟩ |
    ⟨_, _, _, _, _, _, _, h⟩ | ⟨_, h⟩ <;> rw [h] <;> rfl

theorem extract_trace_len (env : Nat → NetResult) (k : Nat) (item : Record)
    (pn : JVal) (soup : Page) :
    (extractAndDownload env k item pn soup).trace.length ≤ 1 := by
  rcases extract_master env k item pn soup with h | ⟨_, _, _, _, _, h⟩ |
    ⟨_, _, _, _, _, _, _, h⟩ | ⟨_, h⟩ <;> rw [h] <;> simp

/-- Exhaustive case description of the per-record processing: skip,
initial-GET failure, consent-free hand-off to extraction, consent-POST
failure, re-GET failure, or consent hand-off to extraction. -/
theorem handleItem_master (env : Nat → NetResult) (k : Nat) (item : Record) :
    ((gmOf item).truthy = false ∧
      handleItem env k item =
        ⟨some (dictSet item "image" JVal.null), [], [], (pnOf item).pyStr⟩) ∨
    (netFail (env k) = true ∧
      handleItem env k item =
        ⟨some (dictSet item "image" JVal.null),
          [⟨.get, (gmOf item).pyStr, []⟩], [], (pnOf item).pyStr⟩) ∨
    (∃ resp0, env k = .ok resp0 ∧ resp0.status < 400 ∧
      (consentForms resp0.page).getLast? = none ∧
      handleItem env k item =
        ⟨(extractAndDownload env (k + 1) item (pnOf item) resp0.page).item,
          ⟨.get, (gmOf item).pyStr, []⟩ ::
            (extractAndDownload env (k + 1) item (pnOf item) resp0.page).trace,
          (extractAndDownload env (k + 1) item (pnOf item) resp0.page).writes,
          (extractAndDownload env (k + 1) item (pnOf item) resp0.page).logName⟩) ∨
    (∃ resp0 form, env k = .ok resp0 ∧ resp0.status < 400 ∧
      (consentForms resp0.page).getLast? = some form ∧
      netFail (env (k + 1)) = true ∧
      handleItem env k item =
        ⟨some (dictSet item "image" JVal.null),
          [⟨.get, (gmOf item).pyStr, []⟩,
           ⟨.post, form.action, buildFormData form.inputs⟩], [],
          (pnOf item).pyStr⟩) ∨
    (∃ resp0 form resp1, env k = .ok resp0 ∧ resp0.status < 400 ∧
      (consentForms resp0.page).getLast? = some form ∧
      env (k + 1) = .ok resp1 ∧ resp1.status < 400 ∧
      netFail (env (k + 2)) = true ∧
      handleItem env k item =
        ⟨some (dictSet item "image" JVal.null),
          [⟨.get, (gmOf item).pyStr, []⟩,
           ⟨.post, form.action, buildFormData form.inputs⟩,
           ⟨.get, (gmOf item).pyStr, []⟩], [],
          (pnOf item).pyStr⟩) ∨
    (∃ resp0 form resp1 resp2, env k = .ok resp0 ∧ resp0.status < 400 ∧
      (consentForms resp0.page).getLast? = some form ∧
      env (k + 1) = .ok resp1 ∧ resp1.status < 400 ∧
      env (k + 2) = .ok resp2 ∧ resp2.status < 400 ∧
      handleItem env k item =
        ⟨(extractAndDownload env (k + 3) item (pnOf item) resp2.page).item,
          ⟨.get, (gmOf item).pyStr, []⟩ ::
            ⟨.post, form.action, buildFormData form.inputs⟩ ::
              ⟨.get, (gmOf item).pyStr, []⟩ ::
                (extractAndDownload env (k + 3) item (pnOf item) resp2.page).trace,
          (extractAndDownload env (k + 3) item (pnOf item) resp2.page).writes,
          (extractAndDownload env (k + 3) item (pnOf item) resp2.page).logName⟩) := by
  by_cases hg : (gmOf item).truthy = false
  · exact Or.inl ⟨hg, by simp [handleItem, hg]⟩
  · rcases he0 : env k with _ | _ | resp0
    · exact Or.inr (Or.inl ⟨by simp [netFail],
        by simp [handleItem, hg, he0, nullOut]⟩)
    · exact Or.inr (Or.inl ⟨by simp [netFail],
        by simp [handleItem, hg, he0, nullOut]⟩)
    · by_cases hs0 : 400 ≤ resp0.status
      · exact Or.inr (Or.inl ⟨by simp [netFail, hs0],
          by simp [handleItem, hg, he0, hs0, nullOut]⟩)
      · rcases hlf : (consentForms resp0.page).getLast? with _ | form
        · exact Or.inr (Or.inr (Or.inl ⟨resp0, rfl, by omega, hlf,
            by simp [handleItem, hg, he0, hs0, hlf, nullOut]⟩))
        · rcases he1 : env (k + 1) with _ | _ | resp1
          · exact Or.inr (Or.inr (Or.inr (Or.inl ⟨resp0, form, rfl, by omega,
              hlf, by simp [netFail],
              by simp [handleItem, hg, he0, hs0, hlf, he1, nullOut]⟩)))
          · exact Or.inr (Or.inr (Or.inr (Or.inl ⟨resp0, form, rfl, by omega,
              hlf, by simp [netFail],
              by simp [handleItem, hg, he0, hs0, hlf, he1, nullOut]⟩)))
          · by_cases hs1 : 400 ≤ resp1.status
            · exact Or.inr (Or.inr (Or.inr (Or.inl ⟨resp0, form, rfl, by omega,
                hlf, by simp [netFail, hs1],
                by simp [handleItem, hg, he0, hs0, hlf, he1, hs1, nullOut]⟩)))
            · rcases he2 : env (k + 2) with _ | _ | resp2
              · exact Or.inr (Or.inr (Or.inr (Or.inr (Or.inl ⟨resp0, form,
                  resp1, rfl, by omega, hlf, rfl, by omega, by simp [netFail],
                  by simp [handleItem, hg, he0, hs0, hlf, he1, hs1, he2,
                    nullOut]⟩))))
              · exact Or.inr (Or.inr (Or.inr (Or.inr (Or.inl ⟨resp0, form,
                  resp1, rfl, by omega, hlf, rfl, by omega, by simp [netFail],
                  by simp [handleItem, hg, he0, hs0, hlf, he1, hs1, he2,
                    nullOut]⟩))))
              · by_cases hs2 : 400 ≤ resp2.status
                · exact Or.inr (Or.inr (Or.inr (Or.inr (Or.inl ⟨resp0, form,
                    resp1, rfl, by omega, hlf, rfl, by omega,
                    by simp [netFail, hs2],
                    by simp [handleItem, hg, he0, hs0, hlf, he1, hs1, he2, hs2,
                      nullOut]⟩))))
                · exact Or.inr (Or.inr (Or.inr (Or.inr (Or.inr ⟨resp0, form,
                    resp1, resp2, rfl, by omega, hlf, rfl, by omega, rfl,
                    by omega,
                    by simp [handleItem, hg, he0, hs0, hlf, he1, hs1, he2, hs2,
                      nullOut]⟩))))

theorem handleItem_logName (env : Nat → NetResult) (k : Nat) (item : Record) :
    (handleItem env k item).logName = (pnOf item).pyStr := by
  rcases handleItem_master env k item with ⟨_, h⟩ | ⟨_, h⟩ | ⟨r0, _, _, _, h⟩ |
    ⟨r0, f, _, _, _, _, h⟩ | ⟨r0, f, r1, _, _, _, _, _, _, h⟩ |
    ⟨r0, f, r1, r2, _, _, _, _, _, _, _, h⟩
  · rw [h]
  · rw [h]
  · rw [h]; exact extract_logName env (k + 1) item (pnOf item) r0.page
  · rw [h]
  · rw [h]
  · rw [h]; exact extract_logName env (k + 3) item (pnOf item) r2.page

theorem handleItem_shape (env : Nat → NetResult) (k : Nat) (item : Record) :
    (handleItem env k item).item = none ∨
    (handleItem env k item).item = some (dictSet item "image" JVal.null) ∨
    ∃ s, (handleItem env k item).item =
      some (dictSet item "image"
        (JVal.str ("place_images/" ++ sanitize s ++ ".jpg"))) := by
  rcases handleItem_master env k item with ⟨_, h⟩ | ⟨_, h⟩ | ⟨r0, _, _, _, h⟩ |
    ⟨r0, f, _, _, _, _, h⟩ | ⟨r0, f, r1, _, _, _, _, _, _, h⟩ |
    ⟨r0, f, r1, r2, _, _, _, _, _, _, _, h⟩
  · exact Or.inr (Or.inl (by rw [h]))
  · exact Or.inr (Or.inl (by rw [h]))
  · rw [h]; exact extract_item_shape env (k + 1) item (pnOf item) r0.page
  · exact Or.inr (Or.inl (by rw [h]))
  · exact Or.inr (Or.inl (by rw [h]))
  · rw [h]; exact extract_item_shape env (k + 3) item (pnOf item) r2.page

/-- A network failure consumed while processing a record always results in
the record being annotated with the null image marker. -/
theorem handleItem_fail_null (env : Nat → NetResult) (k : Nat) (item : Record)
    (h : ∃ j, j < (handleItem env k item).trace.length ∧
        netFail (env (k + j)) = true) :
    (handleItem env k item).item = some (dictSet item "image" JVal.null) := by
  rcases handleItem_master env k item with ⟨_, he⟩ | ⟨_, he⟩ |
    ⟨r0, h0, hs0, _, he⟩ | ⟨r0, f, _, _, _, _, he⟩ |
    ⟨r0, f, r1, _, _, _, _, _, _, he⟩ |
    ⟨r0, f, r1, r2, h0, hs0, _, h1, hs1, h2, hs2, he⟩
  · rw [he]
  · rw [he]
  · obtain ⟨j, hj, hfj⟩ := h
    rw [he] at hj ⊢
    simp only [List.length_cons] at hj
    by_cases hj0 : j = 0
    · subst hj0
      rw [Nat.add_zero, h0] at hfj
      simp only [netFail, decide_eq_true_eq] at hfj
      omega
    · obtain ⟨j', rfl⟩ : ∃ j', j = j' + 1 := ⟨j - 1, by omega⟩
      show (extractAndDownload env (k + 1) item (pnOf item) r0.page).item = _
      apply extract_fail_null
      refine ⟨j', by omega, ?_⟩
      have e : k + 1 + j' = k + (j' + 1) := by omega
      rw [e]
      exact hfj
  · rw [he]
  · rw [he]
  · obtain ⟨j, hj, hfj⟩ := h
    rw [he] at hj ⊢
    simp only [List.length_cons] at hj
    by_cases hj0 : j = 0
    · subst hj0
      rw [Nat.add_zero, h0] at hfj
      simp only [netFail, decide_eq_true_eq] at hfj
      omega
    · by_cases hj1 : j = 1
      · subst hj1
        rw [h1] at hfj
        simp only [netFail, decide_eq_true_eq] at hfj
        omega
      · by_cases hj2 : j = 2
        · subst hj2
          rw [h2] at hfj
          simp only [netFail, decide_eq_true_eq] at hfj
          omega
        · obtain ⟨j', rfl⟩ : ∃ j', j = j' + 3 := ⟨j - 3, by omega⟩
          show (extractAndDownload env (k + 3) item (pnOf item) r2.page).item = _
          apply extract_fail_null
          refine ⟨j', by omega, ?_⟩
          have e : k + 3 + j' = k + (j' + 3) := by omega
          rw [e]
          exact hfj

theorem handleItem_writes (env : Nat → NetResult) (k : Nat) (item : Record)
    (s : String) (hpn : pnOf item = JVal.str s) :
    ((handleItem env k item).writes.all
      (fun w => w.1 == "place_images/" ++ sanitize s ++ ".jpg")) = true := by
  rcases handleItem_master env k item with ⟨_, h⟩ | ⟨_, h⟩ | ⟨r0, _, _, _, h⟩ |
    ⟨r0, f, _, _, _, _, h⟩ | ⟨r0, f, r1, _, _, _, _, _, _, h⟩ |
    ⟨r0, f, r1, r2, _, _, _, _, _, _, _, h⟩
  · rw [h]; rfl
  · rw [h]; rfl
  · rw [h]; exact extract_writes env (k + 1) item (pnOf item) r0.page s hpn
  · rw [h]; rfl
  · rw [h]; rfl
  · rw [h]; exact extract_writes env (k + 3) item (pnOf item) r2.page s hpn

/-- Processing a record that did not die of an uncaught exception leaves
every key other than `image` untouched. -/
theorem lookup_handleItem_ne (env : Nat → NetResult) (k : Nat) (item : Record)
    (r : Record) (key : String) (hkey : key ≠ "image")
    (h : (handleItem env k item).item = some r) :
    List.lookup key r = List.lookup key item := by
  rcases handleItem_shape env k item with h0 | h0 | ⟨s, h0⟩
  · rw [h0] at h
    exact absurd h (by simp)
  · rw [h0] at h
    obtain rfl := Option.some.inj h
    exact lookup_dictSet_ne item "image" key JVal.null hkey
  · rw [h0] at h
    obtain rfl := Option.some.inj h
    exact lookup_dictSet_ne item "image" key _ hkey

/-- When a record is processed without an uncaught exception, the batch
continues with the remaining records, appending their results. -/
theorem runBatch_cons (env : Nat → NetResult) (k : Nat) (item : Record)
    (rest : List Record) (r : Record)
    (h : (handleItem env k item).item = some r) :
    runBatch env k (item :: rest) =
      ⟨((runBatch env (k + (handleItem env k item).trace.length) rest).items).map
          (fun l => r :: l),
        (handleItem env k item).trace ++
          (runBatch env (k + (handleItem env k item).trace.length) rest).trace,
        (handleItem env k item).writes ++
          (runBatch env (k + (handleItem env k item).trace.length) rest).writes⟩ := by
  simp [runBatch, h]

/-- C1 counterexample: on a consent page whose (only, hence last) matching
form contains a named input that is not hidden, the consent POST body is not
the mapping of the form's hidden inputs: line 71 collects every named
`<input>` (`find_all('input')`), regardless of its `type` attribute, so the
POST body holds the non-hidden pair `("q", "1")` while the form's
hidden-input mapping is empty. -/
theorem c1_counterexample :
    (handleItem cxEnv 0 cxItem).trace.get? 1 =
      some ⟨.post, "https://consent.google.com/save", [("q", "1")]⟩ ∧
    buildFormDataHiddenOnly cxForm.inputs = [] ∧
    buildFormData cxForm.inputs ≠ buildFormDataHiddenOnly cxForm.inputs := by
  refine ⟨?_, rfl, by decide⟩
  rfl

/-- C1 (amended): for every fetched page containing at least one form whose
action matches the consent endpoint pattern, the program selects the last
matching form and — when the POST and re-GET succeed — issues exactly one
POST to that form's action URL whose body contains exactly the name/value
pairs of all named input elements of that form (not only the hidden ones;
missing values default to empty, later duplicate names overwrite earlier),
then exactly one re-GET of the original source URL, before attempting
metadata extraction (which issues at most one further GET and no POST). -/
theorem c1_consent_flow (env : Nat → NetResult) (k : Nat) (item : Record)
    (url : String) (resp0 resp1 resp2 : Response) (form : Form)
    (hurl : List.lookup "Google_Maps" item = some (JVal.str url))
    (hne : url ≠ "")
    (h0 : env k = .ok resp0) (hs0 : resp0.status < 400)
    (hform : (consentForms resp0.page).getLast? = some form)
    (h1 : env (k + 1) = .ok resp1) (hs1 : resp1.status < 400)
    (h2 : env (k + 2) = .ok resp2) (hs2 : resp2.status < 400) :
    (handleItem env k item).trace =
      ⟨.get, url, []⟩ :: ⟨.post, form.action, buildFormData form.inputs⟩ ::
        ⟨.get, url, []⟩ ::
          (extractAndDownload env (k + 3) item (pnOf item) resp2.page).trace ∧
    (handleItem env k item).trace.filter (fun r => r.method == Method.post) =
      [⟨.post, form.action, buildFormData form.inputs⟩] ∧
    (handleItem env k item).trace.length ≤ 4 ∧
    (handleItem env k item).item =
      (extractAndDownload env (k + 3) item (pnOf item) resp2.page).item := by
  have hg : (gmOf item).truthy = true := by
    simp [gmOf, hurl, JVal.truthy, hne]
  have hgs : (gmOf item).pyStr = url := by simp [gmOf, hurl, JVal.pyStr]
  have hs0' : ¬ 400 ≤ resp0.status := by omega
  have hs1' : ¬ 400 ≤ resp1.status := by omega
  have hs2' : ¬ 400 ≤ resp2.status := by omega
  have hh : handleItem env k item =
      ⟨(extractAndDownload env (k + 3) item (pnOf item) resp2.page).item,
        ⟨.get, url, []⟩ :: ⟨.post, form.action, buildFormData form.inputs⟩ ::
          ⟨.get, url, []⟩ ::
            (extractAndDownload env (k + 3) item (pnOf item) resp2.page).trace,
        (extractAndDownload env (k + 3) item (pnOf item) resp2.page).writes,
        (extractAndDownload env (k + 3) item (pnOf item) resp2.page).logName⟩ := by
    simp [handleItem, hg, hgs, h0, hs0', hform, h1, hs1', h2, hs2']
  have hgp : (Method.get == Method.post) = false := rfl
  have hpp : (Method.post == Method.post) = true := rfl
  refine ⟨by rw [hh], ?_, ?_, by rw [hh]⟩
  · rw [hh]
    simp [List.filter_cons, hgp, hpp,
      extract_no_post env (k + 3) item (pnOf item) resp2.page]
  · rw [hh]
    have := extract_trace_len env (k + 3) item (pnOf item) resp2.page
    simp only [StepOut.trace, List.length_cons]
    omega

/-- C1 witness: the amended consent flow at a concrete page and record. -/
theorem c1_consent_flow_witness :
    (handleItem cxEnv 0 cxItem).trace =
      ⟨.get, "http://g", []⟩ ::
        ⟨.post, cxForm.action, buildFormData cxForm.inputs⟩ ::
          ⟨.get, "http://g", []⟩ ::
            (extractAndDownload cxEnv 3 cxItem (pnOf cxItem) cxPage).trace ∧
    (handleItem cxEnv 0 cxItem).trace.filter
      (fun r => r.method == Method.post) =
        [⟨.post, cxForm.action, buildFormData cxForm.inputs⟩] ∧
    (handleItem cxEnv 0 cxItem).trace.length ≤ 4 ∧
    (handleItem cxEnv 0 cxItem).item =
      (extractAndDownload cxEnv 3 cxItem (pnOf cxItem) cxPage).item :=
  c1_consent_flow cxEnv 0 cxItem "http://g" ⟨200, cxPage, []⟩ ⟨200, cxPage, []⟩
    ⟨200, cxPage, []⟩ cxForm rfl (by decide) rfl (by decide) rfl rfl (by decide)
    rfl (by decide)

/-- C2: on a final page whose first `itemprop=image` meta tag carries a
non-empty URL, and which also carries an `og:image` meta tag with a
different URL, the image download request uses the `itemprop=image` URL. -/
theorem c2_itemprop_preferred (env : Nat → NetResult) (k : Nat) (item : Record)
    (name : String) (soup : Page) (t : MetaTag) (u : String)
    (h1 : soup.metas.find? (fun m => m.itemprop == some "image") = some t)
    (h2 : t.content = some u) (h3 : u ≠ "")
    (_h4 : soup.metas.any
      (fun m => m.property == some "og:image" && m.content != some u) = true) :
    (extractAndDownload env k item (JVal.str name) soup).trace =
      [⟨.get, u, []⟩] := by
  have hm : findMetaImage soup = some t := by
    unfold findMetaImage
    rw [h1]
  rcases he : env k with _ | _ | resp
  · simp [extractAndDownload, hm, h2, h3, he, nullOut]
  · simp [extractAndDownload, hm, h2, h3, he, nullOut]
  · by_cases hs : 400 ≤ resp.status
    · simp [extractAndDownload, hm, h2, h3, he, hs, nullOut]
    · simp [extractAndDownload, hm, h2, h3, he, hs, nullOut]

/-- C2 witness: on a concrete page carrying both tags with different URLs,
the download request targets the `itemprop=image` URL. -/
theorem c2_itemprop_preferred_witness :
    (extractAndDownload goodEnv 0 [] (JVal.str "P") twoMetaPage).trace =
      [⟨.get, "http://img/a.jpg", []⟩] :=
  c2_itemprop_preferred goodEnv 0 [] "P" twoMetaPage
    ⟨some "image", none, some "http://img/a.jpg"⟩ "http://img/a.jpg"
    rfl rfl (by decide) (by decide)

/-- C3: a record whose `Google_Maps` field is absent or the empty string is
skipped: its `image` field is set to the null marker, no network request and
no file write happen for it, and the batch continues with the remaining
records. -/
theorem c3_skip_no_url (env : Nat → NetResult) (k : Nat) (item : Record)
    (rest : List Record)
    (h : List.lookup "Google_Maps" item = none ∨
        List.lookup "Google_Maps" item = some (JVal.str "")) :
    handleItem env k item =
      ⟨some (dictSet item "image" JVal.null), [], [], (pnOf item).pyStr⟩ ∧
    runBatch env k (item :: rest) =
      ⟨((runBatch env k rest).items).map
          (fun l => dictSet item "image" JVal.null :: l),
        (runBatch env k rest).trace, (runBatch env k rest).writes⟩ := by
  have hg : (gmOf item).truthy = false := by
    rcases h with h | h <;> simp [gmOf, h, JVal.truthy]
  have h1 : handleItem env k item =
      ⟨some (dictSet item "image" JVal.null), [], [], (pnOf item).pyStr⟩ := by
    simp [handleItem, hg]
  refine ⟨h1, ?_⟩
  have h2 := runBatch_cons env k item rest _ (by rw [h1])
  rw [h1] at h2
  simpa using h2

/-- C3 witness: a concrete record with no `Google_Maps` key. -/
theorem c3_skip_no_url_witness :
    handleItem envTimeout 0 [("Place_Name", JVal.str "P")] =
      ⟨some (dictSet [("Place_Name", JVal.str "P")] "image" JVal.null), [], [],
        (pnOf [("Place_Name", JVal.str "P")]).pyStr⟩ ∧
    runBatch envTimeout 0 ([("Place_Name", JVal.str "P")] :: []) =
      ⟨((runBatch envTimeout 0 []).items).map
          (fun l => dictSet [("Place_Name", JVal.str "P")] "image" JVal.null :: l),
        (runBatch envTimeout 0 []).trace, (runBatch envTimeout 0 []).writes⟩ :=
  c3_skip_no_url envTimeout 0 [("Place_Name", JVal.str "P")] [] (Or.inl rfl)

/-- C4: a timeout, connection failure, or non-success HTTP status on any of
the requests issued for a record (initial GET, consent POST, re-GET, or
image download) leaves that record annotated with the null image marker, and
the batch proceeds with the remaining records in order. -/
theorem c4_net_failure_isolated (env : Nat → NetResult) (k : Nat)
    (item : Record) (rest : List Record)
    (h : ∃ j, j < (handleItem env k item).trace.length ∧
        netFail (env (k + j)) = true) :
    (handleItem env k item).item = some (dictSet item "image" JVal.null) ∧
    (runBatch env k (item :: rest)).items =
      ((runBatch env (k + (handleItem env k item).trace.length) rest).items).map
        (fun l => dictSet item "image" JVal.null :: l) := by
  have h1 := handleItem_fail_null env k item h
  refine ⟨h1, ?_⟩
  rw [runBatch_cons env k item rest _ h1]

/-- C4 witness: a concrete record whose initial GET times out. -/
theorem c4_net_failure_isolated_witness :
    (handleItem envTimeout 0 cxItem).item =
      some (dictSet cxItem "image" JVal.null) ∧
    (runBatch envTimeout 0 (cxItem :: [])).items =
      ((runBatch envTimeout
          (0 + (handleItem envTimeout 0 cxItem).trace.length) []).items).map
        (fun l => dictSet cxItem "image" JVal.null :: l) :=
  c4_net_failure_isolated envTimeout 0 cxItem [] ⟨0, by decide, rfl⟩

/-- C5: every record that completes processing — by skip, success,
not-found, or per-record error — carries an `image` field holding either a
string file path or the null marker; it is never left unset. -/
theorem c5_image_always_set (env : Nat → NetResult) (k : Nat) (item : Record)
    (r : Record) (h : (handleItem env k item).item = some r) :
    isImageSet r = true := by
  rcases handleItem_shape env k item with h0 | h0 | ⟨s, h0⟩
  · rw [h0] at h
    exact absurd h (by simp)
  · rw [h0] at h
    obtain rfl := Option.some.inj h
    unfold isImageSet
    rw [lookup_dictSet_self]
  · rw [h0] at h
    obtain rfl := Option.some.inj h
    unfold isImageSet
    rw [lookup_dictSet_self]

/-- C5 witness: the skipped empty record carries a null `image` field. -/
theorem c5_image_always_set_witness : isImageSet [("image", JVal.null)] = true :=
  c5_image_always_set envTimeout 0 [] [("image", JVal.null)] rfl

/-- C6: the output list preserves order and, at every position, every field
other than `image` of the input record, value for value. -/
theorem c6_frame_other_fields (env : Nat → NetResult) (k : Nat)
    (items out : List Record) (h : (runBatch env k items).items = some out) :
    out.length = items.length ∧
    ∀ i key, key ≠ "image" →
      (out.get? i).map (List.lookup key) =
        (items.get? i).map (List.lookup key) := by
  induction items generalizing k out with
  | nil =>
    simp [runBatch] at h
    subst h
    exact ⟨rfl, fun i key _ => rfl⟩
  | cons item rest ih =>
    rcases hitem : (handleItem env k item).item with _ | r
    · simp [runBatch, hitem] at h
    · simp only [runBatch, hitem] at h
      rcases hb : (runBatch env (k + (handleItem env k item).trace.length)
          rest).items with _ | l
      · rw [hb] at h
        simp at h
      · rw [hb] at h
        simp only [Option.map_some'] at h
        obtain rfl : r :: l = out := Option.some.inj h
        obtain ⟨hlen, hfield⟩ :=
          ih (k + (handleItem env k item).trace.length) l hb
        refine ⟨by simp [hlen], ?_⟩
        intro i key hkey
        cases i with
        | zero =>
          simp only [List.get?, Option.map_some']
          rw [lookup_handleItem_ne env k item r key hkey hitem]
        | succ i =>
          simp only [List.get?]
          exact hfield i key hkey

/-- C6 witness: a pass-through field of a concrete record is unchanged at
position 0. -/
theorem c6_frame_other_fields_witness :
    (([[("a", JVal.num 1), ("image", JVal.null)]] : List Record).get? 0).map
        (List.lookup "a") =
      (([[("a", JVal.num 1)]] : List Record).get? 0).map (List.lookup "a") :=
  (c6_frame_other_fields envTimeout 0 [[("a", JVal.num 1)]]
    [[("a", JVal.num 1), ("image", JVal.null)]] rfl).2 0 "a" (by decide)

/-- C7: a missing input file or malformed JSON makes the program print an
error message and return before any network request or file write, and
without writing the output file. -/
theorem c7_input_error_no_activity (env : Nat → NetResult) :
    download_social_preview_images .fileNotFound env = ⟨[], [], none, true⟩ ∧
    download_social_preview_images .jsonDecodeError env =
      ⟨[], [], none, true⟩ :=
  ⟨rfl, rfl⟩

/-- C9: when a record has no `Place_Name` field the display name defaults to
the literal "unknown_place": that name is the one used in the log messages,
and any image file written for the record is
`place_images/unknown_place.jpg`. -/
theorem c9_default_name (env : Nat → NetResult) (k : Nat) (item : Record)
    (h : List.lookup "Place_Name" item = none) :
    (handleItem env k item).logName = "unknown_place" ∧
    ((handleItem env k item).writes.all
      (fun w => w.1 == "place_images/unknown_place.jpg")) = true := by
  have hpn : pnOf item = JVal.str "unknown_place" := by simp [pnOf, h]
  constructor
  · rw [handleItem_logName, hpn]
    rfl
  · have hw := handleItem_writes env k item "unknown_place" hpn
    have hpath : "place_images/" ++ sanitize "unknown_place" ++ ".jpg" =
        "place_images/unknown_place.jpg" := by decide
    rw [hpath] at hw
    exact hw

/-- C9 witness: a nameless record with a successful download writes
`place_images/unknown_place.jpg`. -/
theorem c9_default_name_witness :
    (handleItem goodEnv 0 [("Google_Maps", JVal.str "u")]).writes =
      [("place_images/unknown_place.jpg", [7])] ∧
    ((handleItem goodEnv 0 [("Google_Maps", JVal.str "u")]).logName =
        "unknown_place" ∧
      ((handleItem goodEnv 0 [("Google_Maps", JVal.str "u")]).writes.all
        (fun w => w.1 == "place_images/unknown_place.jpg")) = true) :=
  ⟨rfl, c9_default_name goodEnv 0 [("Google_Maps", JVal.str "u")] rfl⟩

/-- C10: when the located meta tag has no `content` attribute, or an empty
one, the record is annotated with the null marker and no image download
request is issued. -/
theorem c10_empty_content_not_found (env : Nat → NetResult) (k : Nat)
    (item : Record) (pn : JVal) (soup : Page) (t : MetaTag)
    (h1 : findMetaImage soup = some t)
    (h2 : t.content = none ∨ t.content = some "") :
    extractAndDownload env k item pn soup =
      ⟨some (dictSet item "image" JVal.null), [], [], pn.pyStr⟩ := by
  rcases h2 with h2 | h2 <;> simp [extractAndDownload, h1, h2, nullOut]

/-- C10 witness: a concrete page whose `itemprop=image` tag has empty
content. -/
theorem c10_empty_content_not_found_witness :
    extractAndDownload goodEnv 0 [] JVal.null emptyContentPage =
      ⟨some (dictSet [] "image" JVal.null), [], [], JVal.null.pyStr⟩ :=
  c10_empty_content_not_found goodEnv 0 [] JVal.null emptyContentPage
    ⟨some "image", none, some ""⟩ rfl (Or.inr rfl)

end GScrape
